import Mathlib

/-!
Verification of the drone-testng plugin core (plugin/plugin.go, plugin/testng.go).

The Go code is embedded shallowly:

* Go `int` fields become `ℤ` (no overflow is relevant to the properties
  checked here); Go `float64` duration arithmetic is modelled in exact
  rational arithmetic (`ℚ`), except where a property hinges on IEEE-754
  binary64 rounding, for which a dedicated significand/exponent model
  (`F64`, `addF64`) of round-to-nearest-even binary64 addition is given.
* Functions returning Go `error` return `Option String` (`none` = nil) or
  `Except` values; log side effects are dropped, but every value the code
  computes is kept.
* `strconv.ParseFloat` is external library code; it is abstracted as a
  parameter `pf : String → Option ℚ` (`none` = parse error).
* File I/O and XML decoding in `processFile` are external; their outcome
  for each file is reified as a `FileInput` value, and `filepath.Glob`
  in `locateFiles` is reified as the list of located files handed to
  `Exec`.  The goroutine fan-out writes one outcome per file to a pair of
  channels; the channel collection loop of `Exec` is modelled as a fold
  over the list of per-file outcomes in arrival order.
-/

namespace DroneTestNG

/-- Results mirrors plugin/testng.go `Results`: total, failures, skipped are
Go ints (ℤ); DurationMS is the float64 duration sum, modelled in ℚ. -/
structure Results where
  Total : ℤ
  Failures : ℤ
  Skipped : ℤ
  DurationMS : ℚ
deriving DecidableEq, Repr

/-- Zero value of `Results`, as produced by `var aggregatedResults Results`
and by `results := Results{}` in Go. -/
def emptyResults : Results := { Total := 0, Failures := 0, Skipped := 0, DurationMS := 0 }

/-- Componentwise sum, embedding the four `+=` statements used at every
aggregation site (class, suite, report and run level). -/
def addResults (a b : Results) : Results :=
  { Total := a.Total + b.Total
    Failures := a.Failures + b.Failures
    Skipped := a.Skipped + b.Skipped
    DurationMS := a.DurationMS + b.DurationMS }

/-- Test mirrors plugin/testng.go `Test` (a test-method record). -/
structure Test where
  Name : String
  Status : String
  DurationMS : String
  IsConfig : Bool
  Description : String
  Exception : String
deriving DecidableEq, Repr

/-- Class mirrors plugin/testng.go `Class`. -/
structure Class where
  Name : String
  Tests : List Test
deriving DecidableEq, Repr

/-- Method mirrors plugin/testng.go `Method`. -/
structure Method where
  Name : String
  Signature : String
  ClassName : String
deriving DecidableEq, Repr

/-- Group mirrors plugin/testng.go `Group`. -/
structure Group where
  Name : String
  Methods : List Method
deriving DecidableEq, Repr

/-- Suite mirrors plugin/testng.go `Suite`. -/
structure Suite where
  Name : String
  Duration : String
  Groups : List Group
  Classes : List Class
deriving DecidableEq, Repr

/-- TestNGReport mirrors plugin/testng.go `TestNGReport`. -/
structure TestNGReport where
  Suites : List Suite
deriving DecidableEq, Repr

/-- Args mirrors plugin/plugin.go `Args`. -/
structure Args where
  ReportFilenamePattern : String
  FailedFails : ℤ
  FailedSkips : ℤ
  FailureOnFailedTestConfig : Bool
  ThresholdMode : String
  Level : String
deriving DecidableEq, Repr

/-- Constant `ThresholdModeAbsolute` of plugin.go. -/
def ThresholdModeAbsolute : String := "absolute"

/-- Constant `ThresholdModePercentage` of plugin.go. -/
def ThresholdModePercentage : String := "percentage"

/-- Constant `DefaultThresholdMode` of plugin.go. -/
def DefaultThresholdMode : String := ThresholdModeAbsolute

/-- ValidateInputs embeds plugin.go lines 34-51.  Go passes `args` by
value, so the assignment `args.ThresholdMode = DefaultThresholdMode` in the
empty-mode branch mutates only the local copy and is invisible to the
caller; the branch therefore just returns nil here.  Error strings are kept
verbatim except for quotes. -/
def ValidateInputs (args : Args) : Option String :=
  if args.ReportFilenamePattern = "" then
    some ("missing required parameter: ReportFilenamePattern. Please specify the pattern to locate the TestNG report files")
  else if args.FailedFails < 0 ∨ args.FailedSkips < 0 then
    some ("threshold values must be non-negative. Check the configured values for failed and skipped tests")
  else if args.ThresholdMode = "" then
    none
  else if args.ThresholdMode ≠ ThresholdModeAbsolute ∧ args.ThresholdMode ≠ ThresholdModePercentage then
    some ("invalid ThresholdMode value. It must be absolute or percentage. Check the configuration")
  else
    none

/-- checkThreshold embeds plugin.go lines 358-366; the numeric formatting
of the message is abridged but the trigger condition is exact. -/
def checkThreshold (metricName : String) (actualValue thresholdValue : ℚ)
    (isPercentage : Bool) : Option String :=
  if thresholdValue > 0 ∧ actualValue > thresholdValue then
    if isPercentage then
      some (metricName ++ " rate (" ++ toString actualValue ++ ") exceeded the threshold (" ++ toString thresholdValue ++ ")")
    else
      some ("number of " ++ metricName ++ " tests (" ++ toString actualValue ++ ") exceeded the threshold (" ++ toString thresholdValue ++ ")")
  else
    none

/-- validateAbsoluteThresholds embeds plugin.go lines 369-377. -/
def validateAbsoluteThresholds (results : Results) (args : Args) : Option String :=
  match checkThreshold ("failed") ((results.Failures : ℚ)) ((args.FailedFails : ℚ)) false with
  | some err => some err
  | none => checkThreshold ("skipped") ((results.Skipped : ℚ)) ((args.FailedSkips : ℚ)) false

/-- validatePercentageThresholds embeds plugin.go lines 380-397; the
float64 rate computation is modelled exactly over ℚ, with the local
failureRate and skipRate variables inlined. -/
def validatePercentageThresholds (results : Results) (args : Args) : Option String :=
  if results.Total = 0 then
    none
  else
    match checkThreshold ("failure") ((results.Failures : ℚ) / (results.Total : ℚ) * 100) ((args.FailedFails : ℚ)) true with
    | some err => some err
    | none =>
        checkThreshold ("skip") ((results.Skipped : ℚ) / (results.Total : ℚ) * 100) ((args.FailedSkips : ℚ)) true

/-- validateThresholds embeds plugin.go lines 334-355.  In the two mode
branches Go wraps a non-nil error with a prefix and otherwise returns nil,
which is exactly `Option.map`. -/
def validateThresholds (results : Results) (args : Args) : Option String :=
  if args.FailureOnFailedTestConfig ∧ results.Failures > 0 then
    some ("\nbuild marked as failed due to failed configuration methods as FailureOnFailedTestConfig is true")
  else if args.ThresholdMode = ThresholdModeAbsolute then
    Option.map (fun err => "\nabsolute threshold validation failed: " ++ err)
      (validateAbsoluteThresholds results args)
  else if args.ThresholdMode = ThresholdModePercentage then
    Option.map (fun err => "\npercentage threshold validation failed: " ++ err)
      (validatePercentageThresholds results args)
  else
    some ("\ninvalid ThresholdMode: " ++ args.ThresholdMode ++ ", expected 1 (absolute) or 2 (percentage)")

/-- Loop body of the `for _, test := range class.Tests` loop of
aggregateClassResults (plugin.go lines 278-295).  The accumulator is
(results, failedTests, skippedTests).  `pf` stands for
`strconv.ParseFloat(test.DurationMS, 64)`; on a parse error the Go code
logs a warning and `continue`s, skipping only the duration addition. -/
def classStep (pf : String → Option ℚ) (acc : Results × List String × List String)
    (t : Test) : Results × List String × List String :=
  let results := { acc.1 with Total := acc.1.Total + 1 }
  let st :=
    if t.Status = "FAIL" then
      ({ results with Failures := results.Failures + 1 }, acc.2.1 ++ [t.Name], acc.2.2)
    else if t.Status = "SKIP" then
      ({ results with Skipped := results.Skipped + 1 }, acc.2.1, acc.2.2 ++ [t.Name])
    else
      (results, acc.2.1, acc.2.2)
  match pf t.DurationMS with
  | none => st
  | some d => ({ st.1 with DurationMS := st.1.DurationMS + d }, st.2)

/-- aggregateClassResults embeds plugin.go lines 273-298. -/
def aggregateClassResults (pf : String → Option ℚ) (c : Class) :
    Results × List String × List String :=
  c.Tests.foldl (classStep pf) (emptyResults, [], [])

/-- Loop body of the `for _, class := range suite.Classes` loop of
aggregateSuiteResults (plugin.go lines 258-267). -/
def suiteStep (pf : String → Option ℚ) (acc : Results × List String × List String)
    (c : Class) : Results × List String × List String :=
  let r := aggregateClassResults pf c
  (addResults acc.1 r.1, acc.2.1 ++ r.2.1, acc.2.2 ++ r.2.2)

/-- aggregateSuiteResults embeds plugin.go lines 253-270. -/
def aggregateSuiteResults (pf : String → Option ℚ) (s : Suite) :
    Results × List String × List String :=
  s.Classes.foldl (suiteStep pf) (emptyResults, [], [])

/-- Loop body of the `for _, suite := range report.Suites` loop of
logTestNGReportDetails (plugin.go lines 218-233). -/
def reportStep (pf : String → Option ℚ) (acc : Results × List String × List String)
    (s : Suite) : Results × List String × List String :=
  let r := aggregateSuiteResults pf s
  (addResults acc.1 r.1, acc.2.1 ++ r.2.1, acc.2.2 ++ r.2.2)

/-- logTestNGReportDetails embeds plugin.go lines 212-245: it accumulates
results plus the failed/skipped name lists (used there only for logging)
and returns the results. -/
def logTestNGReportDetails (pf : String → Option ℚ) (report : TestNGReport) : Results :=
  (report.Suites.foldl (reportStep pf) (emptyResults, [], [])).1

/-- Model of a Go `error` value, distinguishing the concrete pointer types
the code inspects: `pathError` stands for `*os.PathError`; `wrapError` for
the value built by `fmt.Errorf` with `%w`; `simpleError` for `errors.New`
and `fmt.Errorf` without `%w`. -/
inductive GoError where
  | pathError (op : String) (path : String) (msg : String)
  | wrapError (msg : String) (inner : GoError)
  | simpleError (msg : String)
deriving DecidableEq, Repr

/-- Model of the type assertion `err.(*os.PathError)` (plugin.go line 94):
it succeeds only when the dynamic type is exactly `*os.PathError` — it does
not unwrap wrapped errors — and then yields `e.Path`. -/
def asPathError : GoError → Option String
  | .pathError _ path _ => some path
  | _ => none

/-- Outcome of the external file open / XML decode steps of processFile,
reified as input to the embedding. -/
inductive FileInput where
  | openNotFound
  | openPermissionDenied
  | openOtherError (msg : String)
  | decodeError (msg : String)
  | decoded (report : TestNGReport)
deriving DecidableEq, Repr

/-- processFile embeds plugin.go lines 167-209, with the open/decode
outcome supplied as a `FileInput`.  All of its errors are built by
`fmt.Errorf` without `%w`, hence `simpleError`.  A suite with zero classes
only triggers a log line (lines 201-205) and is otherwise accepted. -/
def processFile (pf : String → Option ℚ) (filename : String) (input : FileInput) :
    Except GoError Results :=
  match input with
  | .openNotFound => .error (.simpleError ("file not found: " ++ filename))
  | .openPermissionDenied => .error (.simpleError ("permission denied for file: " ++ filename))
  | .openOtherError msg =>
      .error (.simpleError ("error opening file: " ++ filename ++ ". Error: " ++ msg))
  | .decodeError msg =>
      .error (.simpleError ("failed to parse TestNG XML for file: " ++ filename ++ ". Error: " ++ msg))
  | .decoded report =>
      if report.Suites.length = 0 then
        .error (.simpleError ("no test suites found in the XML structure of file: " ++ filename))
      else
        .ok (logTestNGReportDetails pf report)

/-- Body of the goroutine spawned per file in Exec (plugin.go lines 72-79):
a processFile failure is wrapped with `fmt.Errorf(..., %w, err)` and sent on
errorsChan, a success is sent on resultsChan. -/
def workerOutcome (pf : String → Option ℚ) (filename : String) (input : FileInput) :
    Except GoError Results :=
  match processFile pf filename input with
  | .error err => .error (.wrapError ("failed to process file " ++ filename) err)
  | .ok res => .ok res

/-- Body of the channel collection loop of Exec (plugin.go lines 85-98).
The accumulator is (aggregatedResults, skippedFiles); an error is appended
to skippedFiles only when the `err.(*os.PathError)` assertion succeeds. -/
def collectStep (acc : Results × List String) (o : Except GoError Results) :
    Results × List String :=
  match o with
  | .ok res => (addResults acc.1 res, acc.2)
  | .error err =>
      match asPathError err with
      | some path => (acc.1, acc.2 ++ [path])
      | none => (acc.1, acc.2)

/-- Collection loop of Exec over the per-file outcomes in channel arrival
order, starting from the zero-valued `aggregatedResults` and empty
`skippedFiles`. -/
def execCollect (outcomes : List (Except GoError Results)) : Results × List String :=
  outcomes.foldl collectStep (emptyResults, [])

/-- Exec embeds plugin.go lines 54-123 downstream of locateFiles: the
located files and their I/O outcomes arrive as `files`; one worker outcome
is collected per file, results are aggregated, and validateThresholds
decides the verdict.  `.ok ()` is Go `return nil`. -/
def Exec (pf : String → Option ℚ) (args : Args) (files : List (String × FileInput)) :
    Except String Unit :=
  if files.length = 0 then
    .error ("no TestNG XML report files found. Check the report file pattern")
  else
    match validateThresholds (execCollect (files.map (fun p => workerOutcome pf p.1 p.2))).1 args with
    | some err => .error err
    | none => .ok ()

/-- Binary64 value in significand/exponent form: the real number
m * 2 ^ e.  Canonical forms (as produced by `addF64`) have m odd or
m = 0 with e = 0, so canonical representations are unique per value. -/
structure F64 where
  m : ℤ
  e : ℤ
deriving DecidableEq, Repr

/-- Exact rational value of an `F64`. -/
def F64.toRat (x : F64) : ℚ := (x.m : ℚ) * 2 ^ x.e

/-- Bit length of a natural number, via fuel-bounded halving (fuel `n`
always suffices). -/
def bitLenAux : ℕ → ℕ → ℕ
  | 0, _ => 0
  | fuel + 1, n => if n = 0 then 0 else bitLenAux fuel (n / 2) + 1

/-- Bit length of a natural number. -/
def bitLen (n : ℕ) : ℕ := bitLenAux n n

/-- Round n / 2 ^ s to the nearest integer, ties to even. -/
def rne (n : ℕ) (s : ℕ) : ℕ :=
  let q := n / 2 ^ s
  let r := n % 2 ^ s
  if 2 * r > 2 ^ s then q + 1
  else if 2 * r < 2 ^ s then q
  else if q % 2 = 0 then q else q + 1

/-- Strip factors of two from the significand (fuel-bounded), producing
the canonical representation of the same value. -/
def normAux : ℕ → ℤ → ℤ → ℤ × ℤ
  | 0, m, e => (m, e)
  | fuel + 1, m, e => if m ≠ 0 ∧ m % 2 = 0 then normAux fuel (m / 2) (e + 1) else (m, e)

/-- Canonicalize an `F64` without changing its value. -/
def normF64 (x : F64) : F64 :=
  if x.m = 0 then ⟨0, 0⟩
  else
    let p := normAux x.m.natAbs x.m x.e
    ⟨p.1, p.2⟩

/-- Round the exact value m * 2 ^ e to 53 significant bits, nearest, ties
to even: IEEE-754 binary64 rounding with an unbounded exponent range
(overflow and subnormal underflow are out of scope). -/
def round64 (m : ℤ) (e : ℤ) : F64 :=
  if m.natAbs < 2 ^ 53 then normF64 ⟨m, e⟩
  else
    let s := bitLen m.natAbs - 53
    let m2 := rne m.natAbs s
    normF64 ⟨if m < 0 then -(m2 : ℤ) else (m2 : ℤ), e + (s : ℤ)⟩

/-- IEEE-754 binary64 addition (round-to-nearest-even) on the
significand/exponent model: align the exponents, add exactly, round. -/
def addF64 (x y : F64) : F64 :=
  let e := min x.e y.e
  let mx := x.m * 2 ^ (x.e - e).toNat
  let my := y.m * 2 ^ (y.e - e).toNat
  round64 (mx + my) e

/-- DurationMS component of the Exec merge loop (plugin.go line 91) under
faithful float64 semantics: `aggregatedResults.DurationMS += res.DurationMS`
folded over the arrival order, from the zero value. -/
def execMergeDurF64 (durs : List F64) : F64 := durs.foldl addF64 ⟨0, 0⟩

/-- The Exec merge loop restricted to successful per-file results
(plugin.go lines 88-91), in the exact-arithmetic model. -/
def execMerge (l : List Results) : Results := l.foldl addResults emptyResults

/-- Names of the FAIL-status tests of a record list, in order; used to
state what the failed-list computed by aggregateClassResults contains. -/
def failNames (ts : List Test) : List String :=
  (ts.filter (fun t => t.Status = "FAIL")).map (fun t => t.Name)

/-- Names of the SKIP-status tests (that are not FAIL, per the else-if) of
a record list, in order. -/
def skipNames (ts : List Test) : List String :=
  (ts.filter (fun t => ¬ t.Status = "FAIL" ∧ t.Status = "SKIP")).map (fun t => t.Name)

/-- Sum of the successfully parsed durations of a record list. -/
def durSum (pf : String → Option ℚ) (ts : List Test) : ℚ :=
  (ts.map (fun t => ((pf t.DurationMS).getD 0))).sum

/-- Mapping a function over an optional error does not change whether
there is an error. -/
theorem map_isSome (g : String → String) (x : Option String) :
    (Option.map g x).isSome = x.isSome := by
  cases x <;> rfl

/-- A threshold check fires exactly when the limit is positive and the
observed value strictly exceeds it. -/
theorem checkThreshold_isSome (nm : String) (a t : ℚ) (p : Bool) :
    (checkThreshold nm a t p).isSome ↔ t > 0 ∧ a > t := by
  unfold checkThreshold
  split_ifs with h hp <;> simp [h]

/-- Absolute-mode validation fires exactly when one of the two limits is
positive and strictly exceeded. -/
theorem validateAbsoluteThresholds_isSome (results : Results) (args : Args) :
    (validateAbsoluteThresholds results args).isSome ↔
      ((args.FailedFails > 0 ∧ results.Failures > args.FailedFails) ∨
       (args.FailedSkips > 0 ∧ results.Skipped > args.FailedSkips)) := by
  unfold validateAbsoluteThresholds
  cases hc : checkThreshold ("failed") ((results.Failures : ℚ)) ((args.FailedFails : ℚ)) false with
  | some e =>
      have h1 := checkThreshold_isSome ("failed") ((results.Failures : ℚ)) ((args.FailedFails : ℚ)) false
      rw [hc] at h1
      simp only [Option.isSome_some, true_iff] at h1
      simp only [Option.isSome_some, true_iff]
      exact Or.inl ⟨by exact_mod_cast h1.1, by exact_mod_cast h1.2⟩
  | none =>
      have h1 := checkThreshold_isSome ("failed") ((results.Failures : ℚ)) ((args.FailedFails : ℚ)) false
      rw [hc] at h1
      simp only [Option.isSome_none, Bool.false_eq_true, false_iff] at h1
      rw [checkThreshold_isSome]
      constructor
      · intro h
        exact Or.inr ⟨by exact_mod_cast h.1, by exact_mod_cast h.2⟩
      · rintro (h | h)
        · exact absurd ⟨by exact_mod_cast h.1, by exact_mod_cast h.2⟩ h1
        · exact ⟨by exact_mod_cast h.1, by exact_mod_cast h.2⟩

/-- Percentage-mode validation: pass outright on zero total, otherwise fire
exactly when a positive limit is strictly exceeded by the rate. -/
theorem validatePercentageThresholds_eval (results : Results) (args : Args) :
    (results.Total = 0 → validatePercentageThresholds results args = none) ∧
    (results.Total ≠ 0 →
      ((validatePercentageThresholds results args).isSome ↔
        (((args.FailedFails : ℚ) > 0 ∧ (results.Failures : ℚ) / (results.Total : ℚ) * 100 > (args.FailedFails : ℚ)) ∨
         ((args.FailedSkips : ℚ) > 0 ∧ (results.Skipped : ℚ) / (results.Total : ℚ) * 100 > (args.FailedSkips : ℚ))))) := by
  constructor
  · intro h0
    unfold validatePercentageThresholds
    rw [if_pos h0]
  · intro hne
    unfold validatePercentageThresholds
    rw [if_neg hne]
    cases hc : checkThreshold ("failure") ((results.Failures : ℚ) / (results.Total : ℚ) * 100) ((args.FailedFails : ℚ)) true with
    | some e =>
        have h1 := checkThreshold_isSome ("failure") ((results.Failures : ℚ) / (results.Total : ℚ) * 100) ((args.FailedFails : ℚ)) true
        rw [hc] at h1
        simp only [Option.isSome_some, true_iff] at h1
        simp only [Option.isSome_some, true_iff]
        exact Or.inl h1
    | none =>
        have h1 := checkThreshold_isSome ("failure") ((results.Failures : ℚ) / (results.Total : ℚ) * 100) ((args.FailedFails : ℚ)) true
        rw [hc] at h1
        simp only [Option.isSome_none, Bool.false_eq_true, false_iff] at h1
        rw [checkThreshold_isSome]
        constructor
        · exact Or.inr
        · rintro (h | h)
          · exact absurd h h1
          · exact h

/-- C1: whenever FailureOnFailedTestConfig is set and the aggregate failure
count is positive, validateThresholds returns the fixed
configuration-method failure reason, before and regardless of the threshold
mode and limit values. -/
theorem failedTestConfig_overrides (results : Results) (args : Args)
    (hflag : args.FailureOnFailedTestConfig = true) (hfail : results.Failures > 0) :
    validateThresholds results args =
      some ("\nbuild marked as failed due to failed configuration methods as FailureOnFailedTestConfig is true") := by
  unfold validateThresholds
  exact if_pos ⟨hflag, hfail⟩

/-- Witness for C1: a concrete run where both absolute limits would pass
(1 failure against limit 100) still fails with the fixed reason. -/
theorem failedTestConfig_overrides_witness :
    validateThresholds ⟨10, 1, 0, 0⟩ ⟨"p", 100, 100, true, "absolute", ""⟩ =
      some ("\nbuild marked as failed due to failed configuration methods as FailureOnFailedTestConfig is true") :=
  failedTestConfig_overrides ⟨10, 1, 0, 0⟩ ⟨"p", 100, 100, true, "absolute", ""⟩ rfl (by decide)

/-- C2: in absolute mode (and absent the configuration-method override),
the evaluator fails iff a positive failed-fails limit is strictly exceeded
by the failure count or a positive failed-skips limit is strictly exceeded
by the skip count; a limit of 0 never triggers and the boundary is
strict. -/
theorem absolute_threshold_iff (results : Results) (args : Args)
    (hmode : args.ThresholdMode = "absolute")
    (hpre : ¬ (args.FailureOnFailedTestConfig ∧ results.Failures > 0)) :
    (validateThresholds results args).isSome ↔
      ((args.FailedFails > 0 ∧ results.Failures > args.FailedFails) ∨
       (args.FailedSkips > 0 ∧ results.Skipped > args.FailedSkips)) := by
  unfold validateThresholds
  rw [if_neg hpre, if_pos (show args.ThresholdMode = ThresholdModeAbsolute by rw [hmode]; rfl)]
  rw [map_isSome]
  exact validateAbsoluteThresholds_isSome results args

/-- Witness for C2: 3 failures against limit 2 (skips within limit). -/
theorem absolute_threshold_iff_witness :
    (validateThresholds ⟨10, 3, 1, 0⟩ ⟨"p", 2, 2, false, "absolute", ""⟩).isSome ↔
      (((2 : ℤ) > 0 ∧ (3 : ℤ) > 2) ∨ ((2 : ℤ) > 0 ∧ (1 : ℤ) > 2)) :=
  absolute_threshold_iff ⟨10, 3, 1, 0⟩ ⟨"p", 2, 2, false, "absolute", ""⟩ rfl (by decide)

/-- C3: in percentage mode (and absent the configuration-method override),
a zero total passes outright regardless of the limits; a positive total
fails iff a positive limit is strictly exceeded by the corresponding
rate (failures or skips over total, times 100). -/
theorem percentage_threshold_iff (results : Results) (args : Args)
    (hmode : args.ThresholdMode = "percentage")
    (hpre : ¬ (args.FailureOnFailedTestConfig ∧ results.Failures > 0)) :
    (results.Total = 0 → validateThresholds results args = none) ∧
    (0 < results.Total →
      ((validateThresholds results args).isSome ↔
        ((0 < args.FailedFails ∧ (results.Failures : ℚ) / (results.Total : ℚ) * 100 > (args.FailedFails : ℚ)) ∨
         (0 < args.FailedSkips ∧ (results.Skipped : ℚ) / (results.Total : ℚ) * 100 > (args.FailedSkips : ℚ))))) := by
  have hroute : validateThresholds results args =
      Option.map (fun err => "\npercentage threshold validation failed: " ++ err)
        (validatePercentageThresholds results args) := by
    unfold validateThresholds
    rw [if_neg hpre, if_neg (show ¬ args.ThresholdMode = ThresholdModeAbsolute by rw [hmode]; decide),
      if_pos (show args.ThresholdMode = ThresholdModePercentage by rw [hmode]; rfl)]
  constructor
  · intro h0
    rw [hroute, (validatePercentageThresholds_eval results args).1 h0]
    rfl
  · intro hpos
    rw [hroute, map_isSome]
    rw [(validatePercentageThresholds_eval results args).2 hpos.ne']
    constructor
    · rintro (h | h)
      · exact Or.inl ⟨by exact_mod_cast h.1, h.2⟩
      · exact Or.inr ⟨by exact_mod_cast h.1, h.2⟩
    · rintro (h | h)
      · exact Or.inl ⟨by exact_mod_cast h.1, h.2⟩
      · exact Or.inr ⟨by exact_mod_cast h.1, h.2⟩

/-- Witness for C3: the spec example, 15 failures out of 100 against a 10
percent limit. -/
theorem percentage_threshold_iff_witness :
    ((0 : ℤ) = 0 → validateThresholds ⟨0, 0, 0, 0⟩ ⟨"p", 10, 10, false, "percentage", ""⟩ = none) ∧
    ((validateThresholds ⟨100, 15, 5, 0⟩ ⟨"p", 10, 10, false, "percentage", ""⟩).isSome ↔
      ((0 < (10 : ℤ) ∧ ((15 : ℤ) : ℚ) / ((100 : ℤ) : ℚ) * 100 > ((10 : ℤ) : ℚ)) ∨
       (0 < (10 : ℤ) ∧ ((5 : ℤ) : ℚ) / ((100 : ℤ) : ℚ) * 100 > ((10 : ℤ) : ℚ)))) :=
  ⟨(percentage_threshold_iff ⟨0, 0, 0, 0⟩ ⟨"p", 10, 10, false, "percentage", ""⟩ rfl (by decide)).1,
   (percentage_threshold_iff ⟨100, 15, 5, 0⟩ ⟨"p", 10, 10, false, "percentage", ""⟩ rfl (by decide)).2 (by decide)⟩

/-- The results component of the collection loop is the fold of the
successful outcomes only: errored outcomes contribute nothing to it. -/
theorem collect_fst (l : List (Except GoError Results)) (r : Results) (sk : List String) :
    (l.foldl collectStep (r, sk)).1 = (l.filterMap Except.toOption).foldl addResults r := by
  induction l generalizing r sk with
  | nil => rfl
  | cons o l ih =>
      cases o with
      | ok res =>
          simp only [List.foldl_cons, collectStep, List.filterMap_cons, Except.toOption]
          exact ih (addResults r res) sk
      | error err =>
          simp only [List.foldl_cons, collectStep, List.filterMap_cons, Except.toOption]
          cases asPathError err with
          | some path => exact ih r (sk ++ [path])
          | none => exact ih r sk

/-- The skipped-files component of the collection loop stays at its initial
value when no collected error passes the `*os.PathError` assertion. -/
theorem collect_snd_const (l : List (Except GoError Results)) (r : Results) (sk : List String)
    (h : ∀ o ∈ l, ∀ e, o = .error e → asPathError e = none) :
    (l.foldl collectStep (r, sk)).2 = sk := by
  induction l generalizing r sk with
  | nil => rfl
  | cons o l ih =>
      cases o with
      | ok res =>
          simp only [List.foldl_cons, collectStep]
          exact ih (addResults r res) sk (fun o ho e he => h o (List.mem_cons_of_mem _ ho) e he)
      | error err =>
          have hpe : asPathError err = none := h _ (List.mem_cons_self _ _) err rfl
          simp only [List.foldl_cons, collectStep, hpe]
          exact ih r sk (fun o ho e he => h o (List.mem_cons_of_mem _ ho) e he)

/-- With zero-valued aggregate results and a recognized mode, threshold
validation passes. -/
theorem validateThresholds_empty (args : Args)
    (h : args.ThresholdMode = ThresholdModeAbsolute ∨ args.ThresholdMode = ThresholdModePercentage) :
    validateThresholds emptyResults args = none := by
  have hz : ∀ (nm : String) (t : ℚ) (p : Bool), checkThreshold nm 0 t p = none := by
    intro nm t p
    unfold checkThreshold
    rw [if_neg]
    rintro ⟨h1, h2⟩
    linarith
  have hflag : ¬ (args.FailureOnFailedTestConfig ∧ emptyResults.Failures > 0) := by
    rintro ⟨h1, h2⟩
    exact absurd h2 (by decide)
  rcases h with h | h
  · unfold validateThresholds
    rw [if_neg hflag, if_pos h]
    have habs : validateAbsoluteThresholds emptyResults args = none := by
      unfold validateAbsoluteThresholds
      rw [show ((emptyResults.Failures : ℚ)) = 0 by norm_num [emptyResults], hz]
      rw [show ((emptyResults.Skipped : ℚ)) = 0 by norm_num [emptyResults], hz]
    rw [habs]
    rfl
  · unfold validateThresholds
    rw [if_neg hflag,
      if_neg (show ¬ args.ThresholdMode = ThresholdModeAbsolute by rw [h]; decide),
      if_pos h]
    have hper : validatePercentageThresholds emptyResults args = none := by
      unfold validatePercentageThresholds
      rw [if_pos (show emptyResults.Total = 0 from rfl)]
    rw [hper]
    rfl

/-- C10: no error sent on errorsChan is a bare `*os.PathError` (workers
wrap every processFile error with `fmt.Errorf`), so after the collection
loop the skippedFiles list is always empty and the guard of the
"Skipped N files due to errors" warning (plugin.go line 101) never
fires, whatever the per-file inputs were. -/
theorem skippedFiles_always_empty (pf : String → Option ℚ) (files : List (String × FileInput)) :
    (execCollect (files.map (fun p => workerOutcome pf p.1 p.2))).2 = [] ∧
    ¬ 0 < (execCollect (files.map (fun p => workerOutcome pf p.1 p.2))).2.length := by
  have h : (execCollect (files.map (fun p => workerOutcome pf p.1 p.2))).2 = [] := by
    unfold execCollect
    apply collect_snd_const
    intro o ho e he
    rcases List.mem_map.mp ho with ⟨p, hp, rfl⟩
    unfold workerOutcome at he
    cases hpf : processFile pf p.1 p.2 with
    | ok res =>
        rw [hpf] at he
        exact absurd he (by simp)
    | error err =>
        rw [hpf] at he
        simp only [Except.error.injEq] at he
        rw [← he]
        rfl
  exact ⟨h, by rw [h]; simp⟩

/-- C5 counterexample: a run in which the only located file fails to parse
does not end with an error at all — Exec aggregates zero totals, threshold
validation passes and Exec returns nil; there is no
"no files could be processed" failure path in the code. -/
theorem allFilesFail_run_succeeds :
    Exec (fun _ => none) ⟨"p", 0, 0, false, "absolute", ""⟩
      [("bad.xml", .decodeError ("unexpected EOF"))] = .ok () := rfl

/-- C5 amended: a parse failure of one file contributes nothing to the
aggregated totals and the run continues; when every located file fails to
process, the run still continues with zero totals and (with a recognized
threshold mode) Exec succeeds rather than failing. -/
theorem parseFailure_recovered :
    (∀ (pre post : List (Except GoError Results)) (e : GoError),
      (execCollect (pre ++ .error e :: post)).1 = (execCollect (pre ++ post)).1) ∧
    (∀ (pf : String → Option ℚ) (args : Args) (files : List (String × FileInput)),
      files ≠ [] →
      (args.ThresholdMode = ThresholdModeAbsolute ∨ args.ThresholdMode = ThresholdModePercentage) →
      (∀ p ∈ files, ∃ e, processFile pf p.1 p.2 = .error e) →
      Exec pf args files = .ok ()) := by
  constructor
  · intro pre post e
    unfold execCollect
    rw [collect_fst, collect_fst]
    congr 1
    simp [List.filterMap_append, Except.toOption]
  · intro pf args files hne hmode hfail
    have hagg : (execCollect (files.map (fun p => workerOutcome pf p.1 p.2))).1 = emptyResults := by
      unfold execCollect
      rw [collect_fst]
      have hnil : (files.map (fun p => workerOutcome pf p.1 p.2)).filterMap Except.toOption = [] := by
        rw [List.filterMap_eq_nil_iff]
        intro o ho
        rcases List.mem_map.mp ho with ⟨p, hp, rfl⟩
        rcases hfail p hp with ⟨e, he⟩
        unfold workerOutcome
        rw [he]
        rfl
      rw [hnil]
      rfl
    unfold Exec
    rw [if_neg (fun hlen => hne (List.length_eq_zero.mp hlen))]
    rw [hagg, validateThresholds_empty args hmode]

/-- Witness for C5 amended: one located file, file open fails, benign
absolute-mode configuration; Exec returns nil. -/
theorem parseFailure_recovered_witness :
    Exec (fun _ => none) ⟨"q", 1, 1, false, "absolute", ""⟩ [("gone.xml", .openNotFound)] =
      .ok () :=
  parseFailure_recovered.2 (fun _ => none) ⟨"q", 1, 1, false, "absolute", ""⟩
    [("gone.xml", .openNotFound)] (by simp) (Or.inl rfl)
    (by
      intro p hp
      rw [List.mem_singleton] at hp
      subst hp
      exact ⟨_, rfl⟩)

/-- C4 (code bug): with an empty ThresholdMode, ValidateInputs succeeds —
but because Go passes Args by value, its defaulting assignment is lost, and
threshold evaluation inside Exec then returns the invalid-ThresholdMode
error instead of behaving like absolute mode, which on the same input
returns nil. -/
theorem emptyMode_reaches_invalidMode :
    ValidateInputs ⟨"report.xml", 0, 0, false, "", ""⟩ = none ∧
    Exec (fun _ => none) ⟨"report.xml", 0, 0, false, "", ""⟩
        [("report.xml", .decoded ⟨[⟨"s", "15", [], [⟨"c", [⟨"t1", "PASS", "5", false, "", ""⟩]⟩]⟩]⟩)] =
      .error ("\ninvalid ThresholdMode: , expected 1 (absolute) or 2 (percentage)") ∧
    Exec (fun _ => none) ⟨"report.xml", 0, 0, false, "absolute", ""⟩
        [("report.xml", .decoded ⟨[⟨"s", "15", [], [⟨"c", [⟨"t1", "PASS", "5", false, "", ""⟩]⟩]⟩]⟩)] =
      .ok () :=
  ⟨rfl, rfl, rfl⟩

/-- Branch-free form of the classStep loop body: each record adds one to
the total, conditionally one to the matching bucket and its name to the
matching list, and its parsed duration (or nothing) to the sum. -/
theorem classStep_eq (pf : String → Option ℚ) (acc : Results × List String × List String)
    (t : Test) :
    classStep pf acc t =
      ({ Total := acc.1.Total + 1
         Failures := acc.1.Failures + (if t.Status = "FAIL" then 1 else 0)
         Skipped := acc.1.Skipped + (if ¬ t.Status = "FAIL" ∧ t.Status = "SKIP" then 1 else 0)
         DurationMS := acc.1.DurationMS + ((pf t.DurationMS).getD 0) },
       acc.2.1 ++ (if t.Status = "FAIL" then [t.Name] else []),
       acc.2.2 ++ (if ¬ t.Status = "FAIL" ∧ t.Status = "SKIP" then [t.Name] else [])) := by
  by_cases hf : t.Status = "FAIL"
  · cases hd : pf t.DurationMS <;> simp [classStep, hf, hd]
  · by_cases hs : t.Status = "SKIP" <;> cases hd : pf t.DurationMS <;>
      simp [classStep, hf, hs, hd]

/-- Closed form of the aggregateClassResults loop from any starting
accumulator. -/
theorem foldl_classStep (pf : String → Option ℚ) (ts : List Test) (r : Results)
    (f s : List String) :
    ts.foldl (classStep pf) (r, f, s) =
      ({ Total := r.Total + (ts.length : ℤ)
         Failures := r.Failures + ((ts.filter (fun t => t.Status = "FAIL")).length : ℤ)
         Skipped := r.Skipped + ((ts.filter (fun t => ¬ t.Status = "FAIL" ∧ t.Status = "SKIP")).length : ℤ)
         DurationMS := r.DurationMS + durSum pf ts },
       f ++ failNames ts, s ++ skipNames ts) := by
  induction ts generalizing r f s with
  | nil => simp [failNames, skipNames, durSum]
  | cons t ts ih =>
      rw [List.foldl_cons, classStep_eq, ih]
      simp only [Prod.mk.injEq, Results.mk.injEq]
      refine ⟨⟨?_, ?_, ?_, ?_⟩, ?_, ?_⟩
      · push_cast [List.length_cons]
        ring
      · rw [List.filter_cons]
        by_cases hf : t.Status = "FAIL" <;> simp [hf] <;> push_cast <;> ring
      · rw [List.filter_cons]
        by_cases hc : ¬ t.Status = "FAIL" ∧ t.Status = "SKIP" <;> simp [hc] <;> push_cast <;> ring
      · simp only [durSum, List.map_cons, List.sum_cons]
        ring
      · rw [failNames, failNames, List.filter_cons]
        by_cases hf : t.Status = "FAIL" <;> simp [hf]
      · rw [skipNames, skipNames, List.filter_cons]
        by_cases hc : ¬ t.Status = "FAIL" ∧ t.Status = "SKIP" <;> simp [hc]

/-- C6: aggregateClassResults counts every record toward the total, counts
exactly the records with status FAIL as failures (recording their names in
order), counts exactly the records with status SKIP (and not FAIL, per the
else-if) as skips (recording their names in order), counts records with
any other status toward neither bucket, and sums the parseable
durations. -/
theorem aggregateClassResults_spec (pf : String → Option ℚ) (c : Class) :
    aggregateClassResults pf c =
      ({ Total := (c.Tests.length : ℤ)
         Failures := ((c.Tests.filter (fun t => t.Status = "FAIL")).length : ℤ)
         Skipped := ((c.Tests.filter (fun t => ¬ t.Status = "FAIL" ∧ t.Status = "SKIP")).length : ℤ)
         DurationMS := durSum pf c.Tests },
       failNames c.Tests, skipNames c.Tests) := by
  unfold aggregateClassResults
  rw [foldl_classStep]
  simp [emptyResults]

/-- C7: a record whose duration does not parse contributes nothing to the
duration sum, while the rest of the records are still processed and the
record itself still counts toward the total and, per its status, the
failure or skip tally and the corresponding name list. -/
theorem invalidDuration_recovered (pf : String → Option ℚ) (nm : String)
    (pre post : List Test) (t : Test) (hd : pf t.DurationMS = none) :
    (aggregateClassResults pf ⟨nm, pre ++ t :: post⟩).1.DurationMS =
      (aggregateClassResults pf ⟨nm, pre ++ post⟩).1.DurationMS ∧
    (aggregateClassResults pf ⟨nm, pre ++ t :: post⟩).1.Total =
      (aggregateClassResults pf ⟨nm, pre ++ post⟩).1.Total + 1 ∧
    (aggregateClassResults pf ⟨nm, pre ++ t :: post⟩).1.Failures =
      (aggregateClassResults pf ⟨nm, pre ++ post⟩).1.Failures +
        (if t.Status = "FAIL" then 1 else 0) ∧
    (aggregateClassResults pf ⟨nm, pre ++ t :: post⟩).1.Skipped =
      (aggregateClassResults pf ⟨nm, pre ++ post⟩).1.Skipped +
        (if ¬ t.Status = "FAIL" ∧ t.Status = "SKIP" then 1 else 0) ∧
    (aggregateClassResults pf ⟨nm, pre ++ t :: post⟩).2.1 =
      failNames pre ++ (if t.Status = "FAIL" then [t.Name] else []) ++ failNames post ∧
    (aggregateClassResults pf ⟨nm, pre ++ t :: post⟩).2.2 =
      skipNames pre ++ (if ¬ t.Status = "FAIL" ∧ t.Status = "SKIP" then [t.Name] else []) ++ skipNames post := by
  unfold aggregateClassResults
  rw [foldl_classStep, foldl_classStep]
  refine ⟨?_, ?_, ?_, ?_, ?_, ?_⟩
  · simp [durSum, List.map_append, List.sum_append, hd]
  · simp only [List.length_append, List.length_cons]
    push_cast
    ring
  · rw [List.filter_append, List.filter_append, List.filter_cons]
    by_cases hf : t.Status = "FAIL" <;> simp [hf] <;> push_cast <;> ring
  · rw [List.filter_append, List.filter_append, List.filter_cons]
    by_cases hc : ¬ t.Status = "FAIL" ∧ t.Status = "SKIP" <;> simp [hc] <;> push_cast <;> ring
  · rw [failNames, List.filter_append, List.filter_cons]
    by_cases hf : t.Status = "FAIL" <;> simp [failNames, hf]
  · rw [skipNames, List.filter_append, List.filter_cons]
    by_cases hc : ¬ t.Status = "FAIL" ∧ t.Status = "SKIP" <;> simp [skipNames, hc]

/-- Witness for C7: one FAIL record with unparseable duration between two
parseable records. -/
theorem invalidDuration_recovered_witness :
    (aggregateClassResults (fun _ => none) ⟨"C", [] ++ ⟨"t2", "FAIL", "x", false, "", ""⟩ :: [⟨"t3", "SKIP", "5", false, "", ""⟩]⟩).1.Total =
      (aggregateClassResults (fun _ => none) ⟨"C", [] ++ [⟨"t3", "SKIP", "5", false, "", ""⟩]⟩).1.Total + 1 ∧
    (aggregateClassResults (fun _ => none) ⟨"C", [] ++ ⟨"t2", "FAIL", "x", false, "", ""⟩ :: [⟨"t3", "SKIP", "5", false, "", ""⟩]⟩).1.DurationMS =
      (aggregateClassResults (fun _ => none) ⟨"C", [] ++ [⟨"t3", "SKIP", "5", false, "", ""⟩]⟩).1.DurationMS :=
  ⟨(invalidDuration_recovered (fun _ => none) ("C") [] [⟨"t3", "SKIP", "5", false, "", ""⟩]
      ⟨"t2", "FAIL", "x", false, "", ""⟩ rfl).2.1,
   (invalidDuration_recovered (fun _ => none) ("C") [] [⟨"t3", "SKIP", "5", false, "", ""⟩]
      ⟨"t2", "FAIL", "x", false, "", ""⟩ rfl).1⟩

/-- Adding the zero-valued results on the right changes nothing. -/
theorem addResults_emptyR (a : Results) : addResults a emptyResults = a := by
  simp [addResults, emptyResults]

/-- Folding over a list with an element on which the step function is the
identity is the same as folding without that element. -/
theorem foldl_skip {α β : Type} (g : β → α → β) (x : α) (pre post : List α) (a : β)
    (hx : ∀ b, g b x = b) :
    (pre ++ x :: post).foldl g a = (pre ++ post).foldl g a := by
  rw [List.foldl_append, List.foldl_append, List.foldl_cons, hx]

/-- C8: processFile rejects a decoded report with zero suites with the
no-test-suites error and aggregates nothing, while a suite with zero
classes is accepted: it contributes zero to every total and the name
lists, and the remaining suites are aggregated exactly as if it were
absent. -/
theorem processFile_structure (pf : String → Option ℚ) (fn : String)
    (report : TestNGReport) (pre post : List Suite) (s : Suite)
    (hempty : report.Suites = []) (hcls : s.Classes = []) :
    processFile pf fn (.decoded report) =
      .error (.simpleError ("no test suites found in the XML structure of file: " ++ fn)) ∧
    aggregateSuiteResults pf s = (emptyResults, [], []) ∧
    processFile pf fn (.decoded ⟨pre ++ s :: post⟩) =
      .ok (logTestNGReportDetails pf ⟨pre ++ post⟩) := by
  have hs2 : aggregateSuiteResults pf s = (emptyResults, [], []) := by
    unfold aggregateSuiteResults
    rw [hcls]
    rfl
  refine ⟨?_, hs2, ?_⟩
  · simp only [processFile]
    rw [hempty]
    rfl
  · have hstep : ∀ b, reportStep pf b s = b := by
      intro b
      unfold reportStep
      rw [hs2]
      simp [addResults_emptyR]
    simp only [processFile, logTestNGReportDetails]
    rw [if_neg (by simp)]
    rw [foldl_skip (reportStep pf) s pre post (emptyResults, [], []) hstep]

/-- Witness for C8: an empty report is rejected; a classless suite ahead of
a normal one-test suite leaves the totals of the normal suite alone. -/
theorem processFile_structure_witness :
    processFile (fun _ => none) ("r.xml") (.decoded ⟨[]⟩) =
      .error (.simpleError ("no test suites found in the XML structure of file: " ++ "r.xml")) ∧
    aggregateSuiteResults (fun _ => none) ⟨"empty", "0", [], []⟩ = (emptyResults, [], []) ∧
    processFile (fun _ => none) ("r.xml")
        (.decoded ⟨[] ++ ⟨"empty", "0", [], []⟩ :: [⟨"s2", "9", [], [⟨"c", [⟨"t", "PASS", "3", false, "", ""⟩]⟩]⟩]⟩) =
      .ok (logTestNGReportDetails (fun _ => none) ⟨[] ++ [⟨"s2", "9", [], [⟨"c", [⟨"t", "PASS", "3", false, "", ""⟩]⟩]⟩]⟩) :=
  processFile_structure (fun _ => none) ("r.xml") ⟨[]⟩ []
    [⟨"s2", "9", [], [⟨"c", [⟨"t", "PASS", "3", false, "", ""⟩]⟩]⟩] ⟨"empty", "0", [], []⟩
    rfl rfl

/-- Closed form of the merge fold: each component is the start value plus
the sum of the corresponding per-file components. -/
theorem foldl_addResults (l : List Results) (a : Results) :
    l.foldl addResults a =
      { Total := a.Total + (l.map (fun r => r.Total)).sum
        Failures := a.Failures + (l.map (fun r => r.Failures)).sum
        Skipped := a.Skipped + (l.map (fun r => r.Skipped)).sum
        DurationMS := a.DurationMS + (l.map (fun r => r.DurationMS)).sum } := by
  induction l generalizing a with
  | nil => simp
  | cons x l ih =>
      rw [List.foldl_cons, ih]
      simp only [List.map_cons, List.sum_cons, Results.mk.injEq, addResults]
      refine ⟨?_, ?_, ?_, ?_⟩ <;> ring

/-- C9 amended: the exact-arithmetic merge of per-file results is fully
order-independent — the integer counters faithfully (Go ints), the
duration only under the exact-rational idealization of float64 (see the
counterexample for the rounding model). -/
theorem merge_order_independent (l m : List Results) (h : l.Perm m) :
    execMerge l = execMerge m := by
  unfold execMerge
  rw [foldl_addResults, foldl_addResults,
    (h.map (fun r => r.Total)).sum_eq, (h.map (fun r => r.Failures)).sum_eq,
    (h.map (fun r => r.Skipped)).sum_eq, (h.map (fun r => r.DurationMS)).sum_eq]

/-- Witness for C9 amended: two arrival orders of the same two per-file
results merge to the same totals. -/
theorem merge_order_independent_witness :
    execMerge [⟨3, 1, 0, 0⟩, ⟨2, 0, 2, 0⟩] = execMerge [⟨2, 0, 2, 0⟩, ⟨3, 1, 0, 0⟩] :=
  merge_order_independent [⟨3, 1, 0, 0⟩, ⟨2, 0, 2, 0⟩] [⟨2, 0, 2, 0⟩, ⟨3, 1, 0, 0⟩] (by decide)

/-- C9 counterexample: under actual binary64 semantics the duration merge
is not associative, so two arrival orders of the same three per-file
durations (1.0ms, 2⁻⁵³ms, 2⁻⁵³ms) produce different aggregated
DurationMS values (1 versus 1 + 2⁻⁵²). -/
theorem merge_duration_order_dependent :
    ([⟨1, 0⟩, ⟨1, -53⟩, ⟨1, -53⟩] : List F64).Perm ([⟨1, -53⟩, ⟨1, -53⟩, ⟨1, 0⟩] : List F64) ∧
    (execMergeDurF64 [⟨1, 0⟩, ⟨1, -53⟩, ⟨1, -53⟩]).toRat ≠
      (execMergeDurF64 [⟨1, -53⟩, ⟨1, -53⟩, ⟨1, 0⟩]).toRat := by
  refine ⟨by decide, ?_⟩
  have h1 : execMergeDurF64 [⟨1, 0⟩, ⟨1, -53⟩, ⟨1, -53⟩] = ⟨1, 0⟩ := by decide
  have h2 : execMergeDurF64 [⟨1, -53⟩, ⟨1, -53⟩, ⟨1, 0⟩] = ⟨2 ^ 52 + 1, -52⟩ := by decide
  rw [h1, h2]
  simp only [F64.toRat]
  intro hcon
  rw [zpow_neg] at hcon
  field_simp at hcon
  norm_num at hcon

end DroneTestNG
